import Mathlib

/-!
Shallow embedding of `src/stack_allocator.hpp` (namespace `foonathan::memory`):
the class `memory_stack` (bump-pointer allocation from a chain of blocks,
marker capture via `top`, rollback via `unwind`) and the adapter class
`stack_allocator`.

Addresses and sizes are modelled as `Nat`; the one place where the source's
`std::size_t` wrap-around behaviour matters (the subtraction
`list_.size() - m.index - 1` in `unwind`) is modelled explicitly with
arithmetic modulo `2 ^ 64` (`sub64`).
-/

namespace StackAlloc

/-- A memory block handed out by the block list: a base address and a size,
mirroring the `{memory, size}` pair returned by `block_list::allocate()`. -/
structure Block where
  memory : Nat
  size : Nat
deriving DecidableEq, Repr

/-- Modelled from the spec: `detail::block_list` (file `detail/block_list.hpp`
is not part of the sources; §6 specifies the BlockChain capability at its
boundary).  `supply` is the external growth policy: `supply k` is the `k`-th
block the chain will ever produce; `produced` counts past `allocate()` calls;
`chain` holds the currently acquired blocks, most recent first.
`allocate()` appends a new block, `deallocate()` releases the most recently
acquired block (LIFO), `size()` reports the block count and
`next_block_size()` is a pure query for the size of the next block. -/
structure block_list where
  supply : Nat → Block
  produced : Nat
  chain : List Block

/-- `block_list::allocate()`: acquire and append the next block. -/
def block_list.allocate (l : block_list) : Block × block_list :=
  let b := l.supply l.produced
  (b, { l with produced := l.produced + 1, chain := b :: l.chain })

/-- `block_list::deallocate()`: release the most recently acquired block. -/
def block_list.deallocate (l : block_list) : block_list :=
  { l with chain := l.chain.tail }

/-- `block_list::size()`: number of currently acquired blocks. -/
def block_list.size (l : block_list) : Nat :=
  l.chain.length

/-- `block_list::next_block_size()`: size of the block the next `allocate()`
call would produce (pure query). -/
def block_list.next_block_size (l : block_list) : Nat :=
  (l.supply l.produced).size

/-- The state of a `memory_stack`: the owned `block_list` `list_` and the
cursor pair `cur_`, `cur_end_` (addresses). -/
structure memory_stack where
  list : block_list
  cur : Nat
  cur_end : Nat

namespace memory_stack

/-- `memory_stack::capacity()`: `cur_end_ - cur_`. -/
def capacity (s : memory_stack) : Nat :=
  s.cur_end - s.cur

/-- `memory_stack::next_capacity()`: forwards to `list_.next_block_size()`. -/
def next_capacity (s : memory_stack) : Nat :=
  s.list.next_block_size

/-- `memory_stack::align_offset(alignment)`: the source computes
`misaligned = address & (alignment - 1)` and returns
`misaligned * (alignment - misaligned)` (its comment announces
`misaligned != 0 ? (alignment - misaligned) : 0` instead).  All operands are
`std::size_t`; the product is computed in 64-bit arithmetic and wraps, hence
the final reduction modulo `2 ^ 64` (the subtraction `alignment - misaligned`
cannot underflow for a nonzero alignment, since `misaligned < alignment`). -/
def align_offset (s : memory_stack) (alignment : Nat) : Nat :=
  let address := s.cur
  let misaligned := address &&& (alignment - 1)
  misaligned * (alignment - misaligned) % 2 ^ 64

/-- `memory_stack::allocate_block()`: pull a block from `list_` and set the
cursor pair to its bounds. -/
def allocate_block (s : memory_stack) : memory_stack :=
  let p := s.list.allocate
  { list := p.2, cur := p.1.memory, cur_end := p.1.memory + p.1.size }

/-- `memory_stack::allocate(size, alignment)`: compute the alignment offset;
if `offset + size` exceeds `capacity()`, acquire a new block and recompute
the offset (the source then `assert`s `offset + size <= capacity()`); advance
`cur_` by the offset, record the address, advance `cur_` by `size` and return
the recorded address. -/
def allocate (s : memory_stack) (size alignment : Nat) : Nat × memory_stack :=
  let offset := align_offset s alignment
  if offset + size > s.capacity then
    let s1 := s.allocate_block
    let offset1 := align_offset s1 alignment
    let memory := s1.cur + offset1
    (memory, { s1 with cur := memory + size })
  else
    let memory := s.cur + offset
    (memory, { s with cur := memory + size })

/-- `memory_stack::marker`: snapshot of `(index, cur, cur_end)`. -/
structure marker where
  index : Nat
  cur : Nat
  cur_end : Nat
deriving DecidableEq, Repr

/-- `memory_stack::top()`: `{list_.size() - 1, cur_, cur_end_}`. -/
def top (s : memory_stack) : marker :=
  ⟨s.list.size - 1, s.cur, s.cur_end⟩

/-- `std::size_t` subtraction: `(a - b) mod 2 ^ 64`, for operands already
reduced modulo `2 ^ 64`. -/
def sub64 (a b : Nat) : Nat :=
  (((a : Int) - (b : Int)) % (2 ^ 64)).toNat

/-- The loop bound `diff = list_.size() - m.index - 1` computed in `unwind`,
in `std::size_t` arithmetic. -/
def unwind_release_count (s : memory_stack) (m : marker) : Nat :=
  sub64 (sub64 s.list.size m.index) 1

/-- `memory_stack::unwind(m)`: the source runs
`for (auto i = 0u; i != diff; ++i) list_.deallocate();` and then restores
`cur_` and `cur_end_` from the marker.  The counter `i` is a 32-bit
`unsigned int` compared against the 64-bit `std::size_t` bound `diff`: when
`diff < 2 ^ 32` the loop performs exactly `diff` deallocations, but for
`diff >= 2 ^ 32` the wrapped counter never equals `diff` and the loop never
terminates (modelled as `none`). -/
def unwind (s : memory_stack) (m : marker) : Option memory_stack :=
  if s.unwind_release_count m < 2 ^ 32 then
    some { list := block_list.deallocate^[s.unwind_release_count m] s.list,
           cur := m.cur, cur_end := m.cur_end }
  else
    none

/-- `memory_stack::memory_stack(block_size, allocator)`: the member `list_`
is constructed from the arguments (modelled by passing the resulting
`block_list` directly); the constructor body calls `allocate_block()`, which
overwrites the yet-uninitialised cursor pair (modelled as `0`). -/
def create (l : block_list) : memory_stack :=
  allocate_block { list := l, cur := 0, cur_end := 0 }

end memory_stack

/-- `stack_allocator`: adapter holding a pointer to a `memory_stack`
(modelled by holding the referenced state). -/
structure stack_allocator where
  stack : memory_stack

namespace stack_allocator

/-- `stack_allocator::allocate_node(size, alignment)`: forwards to
`stack_->allocate(size, alignment)`. -/
def allocate_node (a : stack_allocator) (size alignment : Nat) :
    Nat × stack_allocator :=
  let p := a.stack.allocate size alignment
  (p.1, ⟨p.2⟩)

/-- `stack_allocator::deallocate_node(ptr, size, alignment)`: empty body. -/
def deallocate_node (a : stack_allocator) (_ptr _size _alignment : Nat) :
    stack_allocator :=
  a

/-- `stack_allocator::max_node_size()`: `stack_->next_capacity()`. -/
def max_node_size (a : stack_allocator) : Nat :=
  a.stack.next_capacity

/-- `stack_allocator::max_array_size()`: `stack_->next_capacity()`. -/
def max_array_size (a : stack_allocator) : Nat :=
  a.stack.next_capacity

end stack_allocator

/-- The alignment-offset formula the spec prescribes in §4.1: `0` when the
cursor is already aligned, otherwise `alignment - (cursor mod alignment)`.
Written from the spec's words, to be compared with `align_offset`. -/
def spec_align_offset (address alignment : Nat) : Nat :=
  if address % alignment = 0 then 0 else alignment - address % alignment

/-- Run a sequence of `(size, alignment)` allocation requests. -/
def allocSeq (s : memory_stack) : List (Nat × Nat) → memory_stack
  | [] => s
  | r :: rs => allocSeq (s.allocate r.1 r.2).2 rs

/-- Run a sequence of requests, collecting the returned pointers. -/
def allocRun (s : memory_stack) : List (Nat × Nat) → List Nat × memory_stack
  | [] => ([], s)
  | r :: rs =>
    let p := s.allocate r.1 r.2
    let q := allocRun p.2 rs
    (p.1 :: q.1, q.2)

/-- Boolean check that every request in the sequence fits in the capacity
remaining at the moment it is served (so no block acquisition happens). -/
def fitsB (s : memory_stack) : List (Nat × Nat) → Bool
  | [] => true
  | r :: rs =>
    decide (s.align_offset r.2 + r.1 ≤ s.capacity) &&
      fitsB (s.allocate r.1 r.2).2 rs

/-- The invariant of §3: `cur_ <= cur_end_`, and both cursors lie inside the
currently active block (or immediately one past its end). -/
def inv (s : memory_stack) : Prop :=
  s.cur ≤ s.cur_end ∧
    ∃ b, s.list.chain.head? = some b ∧
      b.memory ≤ s.cur ∧ s.cur_end ≤ b.memory + b.size

instance (s : memory_stack) : Decidable (inv s) :=
  match h : s.list.chain.head? with
  | some b =>
    decidable_of_iff
      (s.cur ≤ s.cur_end ∧ b.memory ≤ s.cur ∧ s.cur_end ≤ b.memory + b.size)
      (by unfold inv; rw [h]; simp)
  | none => isFalse (by unfold inv; rw [h]; simp)

/-! Concrete instances used to exercise the definitions. -/

/-- An example growth policy: the `k`-th block lives at address
`4096 * (k + 1)` and has size `1024 * 2 ^ k` (geometric growth). -/
def exSupply : Nat → Block := fun k => ⟨4096 * (k + 1), 1024 * 2 ^ k⟩

/-- An example freshly constructed `block_list`. -/
def exList : block_list := ⟨exSupply, 0, []⟩

/-- An example `memory_stack` right after construction: one block at
address `4096` of size `1024`. -/
def exStack : memory_stack := memory_stack.create exList

/-- `exStack` after two allocations, the second of which forces a block
switch (`2000` bytes exceed the `24` bytes left in the first block). -/
def exStack2 : memory_stack := allocSeq exStack [(1000, 1), (2000, 4)]

/-- A degenerate growth policy that supplies zero-sized blocks at address
`0`: every allocation then forces a block switch. -/
def zeroList : block_list := ⟨fun _ => ⟨0, 0⟩, 0, []⟩

/-- A stack built over `zeroList`; each request of a single byte acquires
one further block, so long request sequences grow the chain without bound. -/
def zeroStack : memory_stack := memory_stack.create zeroList

/-- A stack state whose cursor sits at address `2 ^ 34 + 2 ^ 32` — an
ordinary 64-bit heap address at which the `size_t` product inside
`align_offset` wraps for alignment `2 ^ 34`. -/
def exStackHigh : memory_stack :=
  { list := exList, cur := 2 ^ 34 + 2 ^ 32, cur_end := 2 ^ 34 + 2 ^ 32 + 1024 }

/-! Helper lemmas. -/

theorem sub64_of_le {a b : Nat} (hba : b ≤ a) (h : a - b < 2 ^ 64) :
    memory_stack.sub64 a b = a - b := by
  unfold memory_stack.sub64
  have h64 : (2 : Int) ^ 64 = 18446744073709551616 := by norm_num
  have h64n : (2 : Nat) ^ 64 = 18446744073709551616 := by norm_num
  rw [h64]; rw [h64n] at h; omega

theorem sub64_of_lt {a b : Nat} (hab : a < b) (h : b - a ≤ 2 ^ 64) :
    memory_stack.sub64 a b = 2 ^ 64 - (b - a) := by
  unfold memory_stack.sub64
  have h64 : (2 : Int) ^ 64 = 18446744073709551616 := by norm_num
  have h64n : (2 : Nat) ^ 64 = 18446744073709551616 := by norm_num
  rw [h64]; rw [h64n] at h ⊢; omega

theorem deallocate_iterate_chain (l : block_list) (n : Nat) :
    (block_list.deallocate^[n] l).chain = l.chain.drop n := by
  induction n generalizing l with
  | zero => rfl
  | succ n ih =>
    rw [Function.iterate_succ_apply, ih]
    unfold block_list.deallocate
    rw [← List.drop_one, List.drop_drop, Nat.add_comm]

/-! C8: deallocate_node is a no-op. -/

/-- C8: for every `stack_allocator` and every argument triple,
`deallocate_node(ptr, size, alignment)` leaves the adapter — and hence the
referenced stack's block count, cursor and block end — unchanged. -/
theorem C8_deallocate_node_noop (a : stack_allocator) (p sz al : Nat) :
    a.deallocate_node p sz al = a ∧
    (a.deallocate_node p sz al).stack.list.size = a.stack.list.size ∧
    (a.deallocate_node p sz al).stack.list.chain = a.stack.list.chain ∧
    (a.deallocate_node p sz al).stack.cur = a.stack.cur ∧
    (a.deallocate_node p sz al).stack.cur_end = a.stack.cur_end :=
  ⟨rfl, rfl, rfl, rfl, rfl⟩

/-! C9: when align_offset returns zero. -/

/-- C9 counterexample: at cursor address `2 ^ 34 + 2 ^ 32` and alignment
`2 ^ 34` the misalignment is `2 ^ 32`, yet the source's `size_t` product
`2 ^ 32 * (2 ^ 34 - 2 ^ 32) = 3 * 2 ^ 64` wraps to `0`: `align_offset`
returns `0` for a cursor that is not a multiple of the alignment. -/
theorem C9_counterexample :
    exStackHigh.align_offset (2 ^ 34) = 0 ∧ exStackHigh.cur % 2 ^ 34 ≠ 0 := by
  decide

/-- C9 (amended): an already-aligned cursor always receives zero padding;
and for power-of-two alignments up to `2 ^ 32` — where the `size_t` product
cannot wrap — `align_offset` returns `0` if and only if the cursor is a
multiple of the alignment.  For larger alignments the equivalence fails
because the product can wrap to `0` on misaligned cursors. -/
theorem C9_align_offset_zero_iff (s : memory_stack) (k : Nat) :
    (s.cur % 2 ^ k = 0 → s.align_offset (2 ^ k) = 0) ∧
    (k ≤ 32 → (s.align_offset (2 ^ k) = 0 ↔ s.cur % 2 ^ k = 0)) := by
  unfold memory_stack.align_offset
  simp only [Nat.and_pow_two_sub_one_eq_mod]
  have hlt : s.cur % 2 ^ k < 2 ^ k := Nat.mod_lt _ (Nat.two_pow_pos k)
  constructor
  · intro h
    rw [h, Nat.zero_mul, Nat.zero_mod]
  · intro hk
    have hkk : (2 : Nat) ^ k ≤ 2 ^ 32 := Nat.pow_le_pow_right (by norm_num) hk
    have hm32 : s.cur % 2 ^ k ≤ 2 ^ 32 - 1 := by omega
    have hd32 : 2 ^ k - s.cur % 2 ^ k ≤ 2 ^ 32 := by omega
    have hbound : s.cur % 2 ^ k * (2 ^ k - s.cur % 2 ^ k) < 2 ^ 64 :=
      lt_of_le_of_lt (Nat.mul_le_mul hm32 hd32) (by norm_num)
    rw [Nat.mod_eq_of_lt hbound]
    constructor
    · intro h
      rcases Nat.mul_eq_zero.mp h with h | h
      · exact h
      · omega
    · intro h
      rw [h, Nat.zero_mul]

/-- C9 witness: on the example stack (cursor `4096`) with alignment
`2 ^ 4 ≤ 2 ^ 32`, the equivalence applies and yields zero padding for the
aligned cursor. -/
theorem C9_align_offset_zero_iff_witness :
    exStack.align_offset (2 ^ 4) = 0 ∧ exStack.cur % 2 ^ 4 = 0 :=
  ⟨((C9_align_offset_zero_iff exStack 4).2 (by decide)).mpr (by decide),
   by decide⟩

/-! C7: unwind(top()) with no intervening allocation is a no-op. -/

/-- C7: `unwind(top())` with no intervening allocation releases zero blocks
(in particular the 32-bit release loop terminates immediately) and leaves
the stack — in particular `capacity()` and `next_capacity()` — unchanged. -/
theorem C7_unwind_top_noop (s : memory_stack) (h1 : 1 ≤ s.list.size)
    (h2 : s.list.size < 2 ^ 64) :
    s.unwind_release_count s.top = 0 ∧ s.unwind s.top = some s ∧
    Option.map memory_stack.capacity (s.unwind s.top) = some s.capacity ∧
    Option.map memory_stack.next_capacity (s.unwind s.top) =
      some s.next_capacity := by
  have e1 : memory_stack.sub64 s.list.size (s.list.size - 1) =
      s.list.size - (s.list.size - 1) := sub64_of_le (by omega) (by omega)
  have hc : s.unwind_release_count s.top = 0 := by
    unfold memory_stack.unwind_release_count memory_stack.top
    rw [e1]
    have e2 : memory_stack.sub64 (s.list.size - (s.list.size - 1)) 1 =
        s.list.size - (s.list.size - 1) - 1 := sub64_of_le (by omega) (by omega)
    rw [e2]; omega
  have hs : s.unwind s.top = some s := by
    unfold memory_stack.unwind
    rw [hc, if_pos (by norm_num)]
    rfl
  exact ⟨hc, hs, by rw [hs]; rfl, by rw [hs]; rfl⟩

/-- C7 witness: the no-op holds on the freshly constructed example stack. -/
theorem C7_unwind_top_noop_witness :
    exStack.unwind_release_count exStack.top = 0 ∧
    exStack.unwind exStack.top = some exStack ∧
    Option.map memory_stack.capacity (exStack.unwind exStack.top) =
      some exStack.capacity ∧
    Option.map memory_stack.next_capacity (exStack.unwind exStack.top) =
      some exStack.next_capacity :=
  C7_unwind_top_noop exStack (by decide) (by decide)

/-! C1: the alignment contract is violated by the shipped `align_offset`. -/

/-- C1 (code defect, evaluated at a failing input): alignment `4` is the
power of two `2 ^ 2`, yet after `allocate(2, 1)` on the freshly constructed
example stack, `allocate(5, 4)` returns an address congruent to `2 mod 4` —
not a multiple of the alignment.  The offset formula
`misaligned * (alignment - misaligned)` adds `4` to the cursor `4098`
instead of the `2` its own comment (`misaligned != 0 ? (alignment -
misaligned) : 0`) prescribes. -/
theorem C1_alignment_violated :
    (4 : Nat) = 2 ^ 2 ∧
    (((memory_stack.create exList).allocate 2 1).2.allocate 5 4).1 % 4 = 2 := by
  decide

/-! C2: where the shipped padding formula agrees with the correct one. -/

/-- C2 counterexample: at cursor address `4096` and alignment `4` the
misalignment is `0`, not `1`, yet the source's formula and the spec's
conditional formula coincide (both give `0`) — refuting the claim that they
agree exactly when the misalignment equals `1`. -/
theorem C2_counterexample :
    exStack.align_offset 4 = spec_align_offset exStack.cur 4 ∧
    exStack.cur &&& (4 - 1) ≠ 1 := by
  decide

/-- C2 (amended): for every cursor and every representable power-of-two
alignment (`2 ^ k` with `k < 64`, the values a `std::size_t` alignment can
take), the source's padding formula `misaligned * (alignment - misaligned)`
— wrap included — equals the conditional formula exactly when the
misalignment is `0` or `1`, and differs from it for every other
misalignment: the wrapped product `(m - 1) * (alignment - m)` has an odd
factor and a factor below `2 ^ 63`, so it can never be a nonzero multiple of
`2 ^ 64`. -/
theorem C2_align_formulas_agree_iff (s : memory_stack) (k : Nat)
    (hk : k < 64) :
    s.align_offset (2 ^ k) = spec_align_offset s.cur (2 ^ k) ↔
      s.cur % 2 ^ k = 0 ∨ s.cur % 2 ^ k = 1 := by
  unfold memory_stack.align_offset spec_align_offset
  simp only [Nat.and_pow_two_sub_one_eq_mod]
  have hlt : s.cur % 2 ^ k < 2 ^ k := Nat.mod_lt _ (Nat.two_pow_pos k)
  have hkb : (2 : Nat) ^ k ≤ 2 ^ 63 := Nat.pow_le_pow_right (by norm_num) (by omega)
  set m := s.cur % 2 ^ k with hm
  constructor
  · intro h
    by_contra hc
    push_neg at hc
    obtain ⟨h0, h1⟩ := hc
    rw [if_neg h0] at h
    have hm2 : 2 ≤ m := by omega
    have hsplit : m * (2 ^ k - m) = (m - 1) * (2 ^ k - m) + (2 ^ k - m) := by
      have hmm : m = m - 1 + 1 := by omega
      calc m * (2 ^ k - m) = (m - 1 + 1) * (2 ^ k - m) := by rw [← hmm]
        _ = (m - 1) * (2 ^ k - m) + (2 ^ k - m) := by ring
    rw [hsplit] at h
    have hdvd : 2 ^ 64 ∣ (m - 1) * (2 ^ k - m) := by omega
    rcases Nat.even_or_odd m with hme | hmo
    · have hodd : Odd (m - 1) := by
        rcases hme with ⟨t, ht⟩
        exact ⟨t - 1, by omega⟩
      have hcop : Nat.Coprime (2 ^ 64) (m - 1) :=
        Nat.Coprime.pow_left _ (Nat.coprime_two_left.mpr hodd)
      have hdd : (2 : Nat) ^ 64 ∣ 2 ^ k - m := hcop.dvd_of_dvd_mul_left hdvd
      have := Nat.le_of_dvd (by omega) hdd
      omega
    · have hk2 : 2 ≤ k := by
        by_contra hkk
        push_neg at hkk
        have : (2 : Nat) ^ k ≤ 2 ^ 1 := Nat.pow_le_pow_right (by norm_num) (by omega)
        omega
      have h2k : (2 : Nat) ∣ 2 ^ k := dvd_pow_self 2 (by omega)
      have hodd : Odd (2 ^ k - m) := by
        rcases hmo with ⟨t, ht⟩
        rcases h2k with ⟨u, hu⟩
        exact ⟨u - t - 1, by omega⟩
      have hcop : Nat.Coprime (2 ^ 64) (2 ^ k - m) :=
        Nat.Coprime.pow_left _ (Nat.coprime_two_left.mpr hodd)
      have hdd : (2 : Nat) ^ 64 ∣ m - 1 := hcop.dvd_of_dvd_mul_right hdvd
      have := Nat.le_of_dvd (by omega) hdd
      omega
  · rintro (h | h)
    · rw [h]; simp
    · rw [h, if_neg (by omega), Nat.one_mul, Nat.mod_eq_of_lt (by omega)]

/-- C2 witness: at cursor `4096` and alignment `2 ^ 4` the two formulas
agree and the misalignment is `0`. -/
theorem C2_align_formulas_agree_iff_witness :
    exStack.align_offset (2 ^ 4) = spec_align_offset exStack.cur (2 ^ 4) ↔
      (exStack.cur % 2 ^ 4 = 0 ∨ exStack.cur % 2 ^ 4 = 1) :=
  C2_align_formulas_agree_iff exStack 4 (by decide)

/-! C10: the size_t loop bound in unwind. -/

theorem allocate_of_switch (s : memory_stack) (sz al : Nat)
    (h : s.capacity < s.align_offset al + sz) :
    s.allocate sz al =
      (s.allocate_block.cur + s.allocate_block.align_offset al,
       { s.allocate_block with
         cur := s.allocate_block.cur + s.allocate_block.align_offset al + sz }) := by
  unfold memory_stack.allocate
  simp only [gt_iff_lt]
  rw [if_pos h]

theorem allocate_of_fit (s : memory_stack) (sz al : Nat)
    (h : s.align_offset al + sz ≤ s.capacity) :
    s.allocate sz al =
      (s.cur + s.align_offset al,
       { s with cur := s.cur + s.align_offset al + sz }) := by
  unfold memory_stack.allocate
  simp only [gt_iff_lt]
  rw [if_neg (by omega)]

theorem allocate_chain_extend (s : memory_stack) (sz al : Nat) :
    ∃ pre : List Block,
      (s.allocate sz al).2.list.chain = pre ++ s.list.chain := by
  rcases Nat.lt_or_ge s.capacity (s.align_offset al + sz) with h | h
  · exact ⟨[s.list.supply s.list.produced],
      by rw [allocate_of_switch s sz al h]; rfl⟩
  · exact ⟨[], by rw [allocate_of_fit s sz al h]; rfl⟩

theorem allocSeq_chain_extend (s : memory_stack) (rs : List (Nat × Nat)) :
    ∃ pre : List Block, (allocSeq s rs).list.chain = pre ++ s.list.chain := by
  induction rs generalizing s with
  | nil => exact ⟨[], rfl⟩
  | cons r rs ih =>
    obtain ⟨pre1, h1⟩ := allocate_chain_extend s r.1 r.2
    obtain ⟨pre2, h2⟩ := ih (s.allocate r.1 r.2).2
    exact ⟨pre2 ++ pre1,
      by show (allocSeq (s.allocate r.1 r.2).2 rs).list.chain = _
         rw [h2, h1, List.append_assoc]⟩

theorem unwind_top_allocSeq (t : memory_stack) (rs : List (Nat × Nat))
    (h1 : 1 ≤ t.list.size) (h2 : (allocSeq t rs).list.size < 2 ^ 64) :
    (allocSeq t rs).unwind_release_count t.top =
      (allocSeq t rs).list.size - t.list.size ∧
    (block_list.deallocate^[(allocSeq t rs).list.size - t.list.size]
        (allocSeq t rs).list).chain = t.list.chain := by
  obtain ⟨pre, hpre⟩ := allocSeq_chain_extend t rs
  have hsz : (allocSeq t rs).list.size = pre.length + t.list.size := by
    unfold block_list.size
    rw [hpre, List.length_append]
  have hcount : (allocSeq t rs).unwind_release_count t.top =
      (allocSeq t rs).list.size - t.list.size := by
    unfold memory_stack.unwind_release_count memory_stack.top
    have e1 : memory_stack.sub64 (allocSeq t rs).list.size (t.list.size - 1) =
        (allocSeq t rs).list.size - (t.list.size - 1) :=
      sub64_of_le (by omega) (by omega)
    rw [e1]
    have e2 : memory_stack.sub64
        ((allocSeq t rs).list.size - (t.list.size - 1)) 1 =
        (allocSeq t rs).list.size - (t.list.size - 1) - 1 :=
      sub64_of_le (by omega) (by omega)
    rw [e2]; omega
  refine ⟨hcount, ?_⟩
  rw [deallocate_iterate_chain, hsz, hpre]
  have e3 : pre.length + t.list.size - t.list.size = pre.length := by omega
  rw [e3, List.drop_left]

/-! Helpers for the divergent-unwind scenario: over `zeroList` every
one-byte request forces a block switch, so `2 ^ 32` requests acquire
`2 ^ 32` further blocks. -/

theorem allocSeq_zero_growth (n : Nat) :
    ∀ s : memory_stack,
      s.list.supply = (fun _ => Block.mk 0 0) → s.capacity = 0 →
      (allocSeq s (List.replicate n (1, 1))).list.size = s.list.size + n := by
  induction n with
  | zero => intro s _ _; rfl
  | succ n ih =>
    intro s hsup hcap
    rw [List.replicate_succ]
    show (allocSeq (s.allocate 1 1).2 (List.replicate n (1, 1))).list.size = _
    have hoff : s.align_offset 1 = 0 := by
      unfold memory_stack.align_offset
      simp
    have hc : s.capacity < s.align_offset 1 + 1 := by
      rw [hoff, hcap]
      omega
    have e := allocate_of_switch s 1 1 hc
    have hb : s.list.supply s.list.produced = Block.mk 0 0 := by rw [hsup]
    have hsup' : (s.allocate 1 1).2.list.supply = (fun _ => Block.mk 0 0) := by
      rw [e]
      exact hsup
    have hcap' : (s.allocate 1 1).2.capacity = 0 := by
      rw [e]
      show s.allocate_block.cur_end -
        (s.allocate_block.cur + s.allocate_block.align_offset 1 + 1) = 0
      have h2 : s.allocate_block.cur_end = 0 := by
        show (s.list.supply s.list.produced).memory +
          (s.list.supply s.list.produced).size = 0
        rw [hb]
        rfl
      rw [h2]
      omega
    have hsz' : (s.allocate 1 1).2.list.size = s.list.size + 1 := by
      rw [e]
      rfl
    rw [ih _ hsup' hcap', hsz']
    omega

theorem allocSeq_zero_size :
    (allocSeq zeroStack (List.replicate (2 ^ 32) (1, 1))).list.size =
      1 + 2 ^ 32 := by
  have h := allocSeq_zero_growth (2 ^ 32) zeroStack rfl rfl
  have hz : zeroStack.list.size = 1 := rfl
  rw [h, hz]

theorem unwind_diverges_zero :
    (allocSeq zeroStack (List.replicate (2 ^ 32) (1, 1))).unwind zeroStack.top =
      none := by
  have hsz := allocSeq_zero_size
  have hidx : zeroStack.top.index = 0 := rfl
  have hcount : (allocSeq zeroStack
      (List.replicate (2 ^ 32) (1, 1))).unwind_release_count zeroStack.top =
      2 ^ 32 := by
    unfold memory_stack.unwind_release_count
    rw [hidx, hsz]
    have e1 : memory_stack.sub64 (1 + 2 ^ 32) 0 = 1 + 2 ^ 32 - 0 :=
      sub64_of_le (by omega) (by omega)
    rw [e1]
    have e2 : memory_stack.sub64 (1 + 2 ^ 32 - 0) 1 = 1 + 2 ^ 32 - 0 - 1 :=
      sub64_of_le (by omega) (by omega)
    rw [e2]
    omega
  unfold memory_stack.unwind
  rw [hcount, if_neg (by omega)]

/-! C3: unwind against a marker, release count and restoration. -/

theorem fitsB_cons {s : memory_stack} {r : Nat × Nat} {rs : List (Nat × Nat)}
    (h : fitsB s (r :: rs) = true) :
    s.align_offset r.2 + r.1 ≤ s.capacity ∧
      fitsB (s.allocate r.1 r.2).2 rs = true := by
  have h' := h
  unfold fitsB at h'
  rw [Bool.and_eq_true, decide_eq_true_eq] at h'
  exact h'

theorem allocRun_fits_list (s : memory_stack) (rs : List (Nat × Nat))
    (h : fitsB s rs = true) :
    (allocRun s rs).2.list = s.list := by
  induction rs generalizing s with
  | nil => rfl
  | cons r rs ih =>
    obtain ⟨h1, h2⟩ := fitsB_cons h
    show (allocRun (s.allocate r.1 r.2).2 rs).2.list = s.list
    rw [ih _ h2, allocate_of_fit s r.1 r.2 h1]

theorem allocRun_fits_lb (s : memory_stack) (rs : List (Nat × Nat))
    (h : fitsB s rs = true) :
    ∀ k, k < rs.length → s.cur ≤ (allocRun s rs).1.getD k 0 := by
  induction rs generalizing s with
  | nil => intro k hk; simp at hk
  | cons r rs ih =>
    obtain ⟨h1, h2⟩ := fitsB_cons h
    intro k hk
    have hp : (allocRun s (r :: rs)).1 =
        (s.allocate r.1 r.2).1 :: (allocRun (s.allocate r.1 r.2).2 rs).1 := rfl
    rw [hp]
    cases k with
    | zero =>
      rw [List.getD_cons_zero, allocate_of_fit s r.1 r.2 h1]
      exact Nat.le_add_right _ _
    | succ k =>
      rw [List.getD_cons_succ]
      have hc : s.cur ≤ (s.allocate r.1 r.2).2.cur := by
        rw [allocate_of_fit s r.1 r.2 h1]
        show s.cur ≤ s.cur + s.align_offset r.2 + r.1
        omega
      exact Nat.le_trans hc (ih _ h2 k (by simpa using hk))

theorem allocRun_fits_ordered (s : memory_stack) (rs : List (Nat × Nat))
    (h : fitsB s rs = true) :
    ∀ i j, i < j → j < rs.length →
      (allocRun s rs).1.getD i 0 + (rs.getD i (0, 0)).1 ≤
        (allocRun s rs).1.getD j 0 := by
  induction rs generalizing s with
  | nil => intro i j hij hj; simp at hj
  | cons r rs ih =>
    obtain ⟨h1, h2⟩ := fitsB_cons h
    intro i j hij hj
    have hp : (allocRun s (r :: rs)).1 =
        (s.allocate r.1 r.2).1 :: (allocRun (s.allocate r.1 r.2).2 rs).1 := rfl
    rw [hp]
    cases j with
    | zero => omega
    | succ j =>
      cases i with
      | zero =>
        rw [List.getD_cons_zero, List.getD_cons_succ, List.getD_cons_zero]
        have hcur : (s.allocate r.1 r.2).1 + r.1 = (s.allocate r.1 r.2).2.cur := by
          rw [allocate_of_fit s r.1 r.2 h1]
        rw [hcur]
        exact allocRun_fits_lb _ rs h2 j (by simpa using hj)
      | succ i =>
        rw [List.getD_cons_succ, List.getD_cons_succ, List.getD_cons_succ]
        exact ih _ h2 i j (by omega) (by simpa using hj)

/-! C5: fitting allocations never grow and hand out disjoint ranges. -/

/-- C5: for a sequence of allocations each of which fits in the capacity
remaining when it is served, the block list is untouched (no acquisition,
block count unchanged) and the returned ranges `[p, p + size)` are ordered —
each earlier range ends no later than a later one begins — hence pairwise
non-overlapping, with strictly increasing pointers whenever the earlier
request's size is positive. -/
theorem C5_sequential (s : memory_stack) (rs : List (Nat × Nat))
    (h : fitsB s rs = true) :
    (allocRun s rs).2.list = s.list ∧
    (allocRun s rs).2.list.size = s.list.size ∧
    (∀ i j, i < j → j < rs.length →
      (allocRun s rs).1.getD i 0 + (rs.getD i (0, 0)).1 ≤
        (allocRun s rs).1.getD j 0) ∧
    (∀ i j, i < j → j < rs.length → 0 < (rs.getD i (0, 0)).1 →
      (allocRun s rs).1.getD i 0 < (allocRun s rs).1.getD j 0) := by
  have hl := allocRun_fits_list s rs h
  have ho := allocRun_fits_ordered s rs h
  refine ⟨hl, by rw [hl], ho, ?_⟩
  intro i j hij hj hpos
  have := ho i j hij hj
  omega

/-- C5 witness: two 16-aligned requests inside the first block leave the
block list untouched and return ordered, disjoint, strictly increasing
pointers. -/
theorem C5_sequential_witness :
    (allocRun exStack [(100, 16), (50, 16)]).2.list = exStack.list ∧
    (allocRun exStack [(100, 16), (50, 16)]).1.getD 0 0 + 100 ≤
      (allocRun exStack [(100, 16), (50, 16)]).1.getD 1 0 ∧
    (allocRun exStack [(100, 16), (50, 16)]).1.getD 0 0 <
      (allocRun exStack [(100, 16), (50, 16)]).1.getD 1 0 :=
  ⟨(C5_sequential exStack [(100, 16), (50, 16)] (by decide)).1,
   (C5_sequential exStack [(100, 16), (50, 16)] (by decide)).2.2.1 0 1
     (by decide) (by decide),
   (C5_sequential exStack [(100, 16), (50, 16)] (by decide)).2.2.2 0 1
     (by decide) (by decide) (by decide)⟩

/-! C6: the cursor invariant under the three operations. -/

end StackAlloc
